import Mathlib

/-!
Verification of the bsky-syndicator core against its specification.

Shallow embedding conventions:
* A text is a `List Char`; each `Char` stands for one grapheme cluster
  (the TypeScript code segments with `Intl.Segmenter` at grapheme
  granularity; for texts whose clusters are single code points the
  segmentation is the identity, which is the regime all claims live in).
* Length counters return `Int`, because the source computes
  `maxLength - countFn(suffix)` with JavaScript numbers, which may go
  negative.
* The SQLite tables of `src/core/db.ts` are modelled as association
  lists keyed exactly as the tables are (uri, (uri, platform), day).
  `INSERT ... ON CONFLICT(k) DO UPDATE` becomes `upsertWith`, plain
  `UPDATE ... WHERE` becomes `updateRow`.
* `new Date()` timestamps are threaded as explicit arguments.
-/

set_option maxRecDepth 4000

namespace Syndicator

abbrev Text := List Char

/-- `countLength` arguments of the splitter: `src/core/text-splitter.ts` line 3. -/
abbrev LengthCounter := Text → Int

/-- `countByCodePoints` (text-splitter.ts line 5): `Array.from(text).length`. -/
def countByCodePoints : LengthCounter := fun t => (t.length : Int)

/-- The `\s` test of text-splitter.ts (line 27/94), on the ASCII whitespace
the modelled texts use. -/
def isWsChar (c : Char) : Bool :=
  c = ' ' || c = '\t' || c = '\n' || c = '\r'

/-- `isBreakCandidate` (text-splitter.ts lines 26-28): whitespace or
sentence punctuation. -/
def isBreakCandidate (c : Char) : Bool :=
  isWsChar c || c = '.' || c = '!' || c = '?' || c = ',' || c = ';' || c = ':'

/-- JavaScript `String.prototype.trimEnd`. -/
def trimEnd (t : Text) : Text :=
  (t.reverse.dropWhile isWsChar).reverse

/-- JavaScript `String.prototype.trim`. -/
def trimBoth (t : Text) : Text :=
  trimEnd (t.dropWhile isWsChar)

/-- The greedy loop of `trimToLimit` (text-splitter.ts lines 35-44):
extend `out` grapheme by grapheme while the count stays within the limit. -/
def trimFit (countLength : LengthCounter) (maxLength : Int) (out : Text) : Text → Text
  | [] => out
  | g :: gs =>
    if countLength (out ++ [g]) > maxLength then out
    else trimFit countLength maxLength (out ++ [g]) gs

/-- `trimToLimit` (text-splitter.ts lines 30-47). -/
def trimToLimit (t : Text) (maxLength : Int) (countLength : LengthCounter) : Text :=
  if countLength t ≤ maxLength then t
  else trimEnd (trimFit countLength maxLength [] t)

/-- Result of the inner scan of `splitRaw` (text-splitter.ts lines 60-71):
the greedy-fill candidate, its grapheme length, and the offset (relative to
the window start) of the last break-candidate grapheme accepted. -/
structure ScanResult where
  cand : Text
  len : Nat
  lastBoundary : Option Nat
  deriving Repr, DecidableEq

/-- Inner `while` loop of `splitRaw`: extend the candidate while appending
the next grapheme keeps the count within `maxLength`, tracking the last
break-candidate position. -/
def scanWindow (countLength : LengthCounter) (maxLength : Int) :
    Text → Text → Nat → Option Nat → ScanResult
  | [], cand, k, lb => ⟨cand, k, lb⟩
  | g :: gs, cand, k, lb =>
    if countLength (cand ++ [g]) > maxLength then ⟨cand, k, lb⟩
    else scanWindow countLength maxLength gs (cand ++ [g]) (k + 1)
        (if isBreakCandidate g then some k else lb)

/-- One iteration of the outer loop of `splitRaw` (text-splitter.ts lines
55-92), producing the window text and the number of graphemes consumed.
`Math.floor(fullWindow * 0.55)` is `11 * fullWindow / 20` in natural
division (0.55 rounds to a double slightly above 11/20, and for window
sizes in range the floor agrees). -/
def windowSplit (countLength : LengthCounter) (maxLength : Int) (g : Char) (gs : Text) :
    Text × Nat :=
  let res := scanWindow countLength maxLength (g :: gs) [] 0 none
  if res.len = 0 then ([g], 1)
  else
    match res.lastBoundary with
    | some b =>
      if ¬(res.len = (g :: gs).length) ∧ b + 1 < res.len ∧ 11 * res.len / 20 ≤ b + 1 then
        ((g :: gs).take (b + 1), b + 1)
      else (res.cand, res.len)
    | none => (res.cand, res.len)

/-- Outer loop of `splitRaw` (text-splitter.ts lines 49-100): cut windows,
trim each, drop empty ones, and skip whitespace between windows.  The
`fuel` argument only bounds the number of iterations so the recursion is
structural: every iteration consumes at least one grapheme, so a fuel
equal to the remaining grapheme count never runs out
(`splitRawLoop_fuel_irrelevant` below proves the fuel is immaterial as
long as it covers the length). -/
def splitRawLoop (countLength : LengthCounter) (maxLength : Int) : Nat → Text → List Text
  | 0, _ => []
  | _, [] => []
  | fuel + 1, g :: gs =>
    let w := windowSplit countLength maxLength g gs
    let cleaned := trimBoth w.1
    let rest := ((g :: gs).drop w.2).dropWhile isWsChar
    if cleaned.isEmpty then splitRawLoop countLength maxLength fuel rest
    else cleaned :: splitRawLoop countLength maxLength fuel rest

/-- `splitRaw` (text-splitter.ts line 49): the graphemes are taken from the
trimmed input. -/
def splitRaw (text : Text) (maxLength : Int) (countLength : LengthCounter) : List Text :=
  splitRawLoop countLength maxLength (trimBoth text).length (trimBoth text)

/-- The thread-counter suffix `\x20i/N` appended when splitting occurs
(text-splitter.ts line 125). -/
def mkSuffix (i total : Nat) : Text :=
  ' ' :: (Nat.toDigits 10 i ++ '/' :: Nat.toDigits 10 total)

/-- The final map of `splitIntoThread` (text-splitter.ts lines 124-129):
re-trim each raw chunk to `maxLength - countFn(suffix)` and append the
1-indexed counter suffix. -/
def suffixSegments (countLength : LengthCounter) (maxLength : Int) (total : Nat) :
    Nat → List Text → List Text
  | _, [] => []
  | i, chunk :: rest =>
    let suffix := mkSuffix (i + 1) total
    let maxTextLength := maxLength - countLength suffix
    (trimToLimit chunk maxTextLength countLength ++ suffix)
      :: suffixSegments countLength maxLength total (i + 1) rest

/-- `splitIntoThread` (text-splitter.ts lines 102-130). `reserveForCounter`
is optional with default 6, as in the source. -/
def splitIntoThread (text : Text) (maxLength : Int) (countLength : LengthCounter)
    (reserveForCounter : Option Int) : List Text :=
  let input := trimBoth text
  if input.isEmpty then [[]]
  else
    let reserve := reserveForCounter.getD 6
    if countLength input ≤ maxLength then [input]
    else
      let rawChunks := splitRaw input (max 1 (maxLength - reserve)) countLength
      if rawChunks.length ≤ 1 then [trimToLimit input maxLength countLength]
      else suffixSegments countLength maxLength rawChunks.length 0 rawChunks

/-- A counter that adds over concatenation; `countByCodePoints` is one. -/
def AdditiveCounter (C : LengthCounter) : Prop :=
  ∀ a b : Text, C (a ++ b) = C a + C b

/-- A counter that weighs every grapheme nonnegatively. -/
def CharNonnegCounter (C : LengthCounter) : Prop :=
  ∀ c : Char, 0 ≤ C [c]

/-! ## The Ledger: `src/core/db.ts`

Each SQLite table becomes an association list keyed by its primary key.
A valid table state has at most one entry per key; the operations below
preserve that, mirroring the SQL statements:
`INSERT ... ON CONFLICT(k) DO UPDATE SET ...` is `upsertWith` (insert when
the key is absent, update the existing row in place otherwise), and a bare
`UPDATE ... WHERE k = ?` is `updateRow`. -/

section KV

variable {κ ν : Type} [DecidableEq κ]

/-- `SELECT ... WHERE key = ?` on a single-row primary key. -/
def findRow (k : κ) : List (κ × ν) → Option ν
  | [] => none
  | (k', v) :: rest => if k' = k then some v else findRow k rest

/-- `INSERT (k, ins) ON CONFLICT(k) DO UPDATE` applying `upd` to the
conflicting row. -/
def upsertWith (k : κ) (ins : ν) (upd : ν → ν) : List (κ × ν) → List (κ × ν)
  | [] => [(k, ins)]
  | (k', v) :: rest =>
    if k' = k then (k', upd v) :: rest
    else (k', v) :: upsertWith k ins upd rest

/-- `UPDATE ... SET (f) WHERE key = ?`. -/
def updateRow (k : κ) (f : ν → ν) : List (κ × ν) → List (κ × ν) :=
  List.map (fun p => if p.1 = k then (p.1, f p.2) else p)

end KV

/-- A row of the `source_posts` table (db.ts lines 38-44). -/
structure SourceRow where
  cid : String
  createdAt : String
  detectedAt : String
  deletedAt : Option String
  deriving Repr, DecidableEq

/-- A row of the `platform_results` table (db.ts lines 46-56).
`remoteIdsJson` holds the parsed content of the `remote_ids_json` column:
the column stores `JSON.stringify` of a non-empty string array, which
parses back to the same array with every element a string. -/
structure PlatformRow where
  status : String
  remoteId : Option String
  remoteIdsJson : Option (List String)
  remoteUrl : Option String
  error : Option String
  updatedAt : String
  deriving Repr, DecidableEq

/-- The persistent state owned by `AppDatabase` (db.ts). -/
structure Ledger where
  sourcePosts : List (String × SourceRow)
  platformResults : List ((String × String) × PlatformRow)
  twitterBudget : List (String × Int)
  deriving Repr, DecidableEq

def emptyLedger : Ledger := ⟨[], [], []⟩

/-- JavaScript truthiness of a nullable string: `null`, `undefined` and
the empty string are falsy. -/
def strTruthy : Option String → Option String
  | some s => if s = "" then none else some s
  | none => none

/-- `hasSeenSourcePost` (db.ts lines 68-73). -/
def hasSeenSourcePost (st : Ledger) (uri : String) : Bool :=
  (findRow uri st.sourcePosts).isSome

/-- `listActiveSourceUris` (db.ts lines 75-80):
`SELECT uri FROM source_posts WHERE deleted_at IS NULL`. -/
def listActiveSourceUris (st : Ledger) : List String :=
  (st.sourcePosts.filter (fun p => p.2.deletedAt.isNone)).map Prod.fst

/-- `markSourcePostSeen` (db.ts lines 82-96): upsert setting every column,
with `deleted_at = NULL`; `now` stands for `new Date().toISOString()`. -/
def markSourcePostSeen (st : Ledger) (uri cid createdAt now : String) : Ledger :=
  let row : SourceRow := ⟨cid, createdAt, now, none⟩
  { st with sourcePosts := upsertWith uri row (fun _ => row) st.sourcePosts }

/-- `markSourcePostDeleted` (db.ts lines 98-108): plain UPDATE, a no-op for
an unseen uri. -/
def markSourcePostDeleted (st : Ledger) (uri now : String) : Ledger :=
  { st with sourcePosts :=
      updateRow uri (fun r => { r with deletedAt := some now }) st.sourcePosts }

/-- `Array.from(new Set(xs))`: deduplicate keeping first occurrences in
order (JavaScript `Set` iterates in insertion order). -/
def dedupKeepFirst (l : List String) : List String :=
  go l []
where
  go : List String → List String → List String
    | [], _ => []
    | x :: xs, seen =>
      if x ∈ seen then go xs seen else x :: go xs (x :: seen)

/-- `recordPlatformSuccess` (db.ts lines 110-143). The conflict clause sets
every column to the inserted values, so the upsert replaces the row.
`params.remoteIds?.length ? JSON.stringify(Array.from(new Set(...))) : null`
stores the deduplicated list when the optional list is non-empty. -/
def successRemoteIdsJson : Option (List String) → Option (List String)
  | some l => if l.length ≠ 0 then some (dedupKeepFirst l) else none
  | none => none

/-- The row written by `recordPlatformSuccess`. -/
def successRow (remoteId : Option String) (remoteIds : Option (List String))
    (remoteUrl : Option String) (now : String) : PlatformRow :=
  ⟨"success", remoteId, successRemoteIdsJson remoteIds, remoteUrl, none, now⟩

def recordPlatformSuccess (st : Ledger) (uri platform : String) (remoteId : Option String)
    (remoteIds : Option (List String)) (remoteUrl : Option String) (now : String) : Ledger :=
  let row := successRow remoteId remoteIds remoteUrl now
  { st with platformResults :=
      upsertWith (uri, platform) row (fun _ => row) st.platformResults }

/-- `recordPlatformFailure` (db.ts lines 145-162). The conflict clause
updates only `status`, `error` and `updated_at`, leaving `remote_id`,
`remote_ids_json` and `remote_url` as they were. -/
def recordPlatformFailure (st : Ledger) (uri platform error now : String) : Ledger :=
  let ins : PlatformRow := ⟨"failed", none, none, none, some error, now⟩
  let upd : PlatformRow → PlatformRow :=
    fun old => { old with status := "failed", error := some error, updatedAt := now }
  { st with platformResults := upsertWith (uri, platform) ins upd st.platformResults }

/-- `recordPlatformDeletion` (db.ts lines 164-180): the conflict clause
nulls every data column. -/
def recordPlatformDeletion (st : Ledger) (uri platform now : String) : Ledger :=
  let ins : PlatformRow := ⟨"deleted", none, none, none, none, now⟩
  let upd : PlatformRow → PlatformRow :=
    fun old => { old with
      status := "deleted"
      remoteId := none
      remoteIdsJson := none
      remoteUrl := none
      error := none
      updatedAt := now }
  { st with platformResults := upsertWith (uri, platform) ins upd st.platformResults }

/-- `getPlatformRemoteIds` (db.ts lines 182-205). When `remote_ids_json` is
set it is a stored JSON string array, which parses back identically and
whose elements all pass the string filter; otherwise the single
`remote_id` is returned when truthy. -/
def getPlatformRemoteIds (st : Ledger) (uri platform : String) : List String :=
  match findRow (uri, platform) st.platformResults with
  | none => []
  | some row =>
    match row.remoteIdsJson with
    | some l => l
    | none =>
      match strTruthy row.remoteId with
      | some r => [r]
      | none => []

/-- `getPlatformRemoteId` (db.ts lines 207-209): first element or null. -/
def getPlatformRemoteId (st : Ledger) (uri platform : String) : Option String :=
  (getPlatformRemoteIds st uri platform).head?

/-- `getTwitterPostCount` (db.ts lines 237-242): 0 when the day has no row. -/
def getTwitterPostCount (st : Ledger) (day : String) : Int :=
  (findRow day st.twitterBudget).getD 0

/-- `incrementTwitterPostCount` (db.ts lines 244-256):
`INSERT (day, by) ON CONFLICT(day) DO UPDATE SET count = count + excluded.count`. -/
def incrementTwitterPostCount (st : Ledger) (day : String) (incrementBy : Int) : Ledger :=
  { st with twitterBudget :=
      upsertWith day incrementBy (fun c => c + incrementBy) st.twitterBudget }

/-- The mutating Ledger operations (`AppDatabase`, db.ts), as a trace
alphabet: any interleaving of these is a possible history of the store. -/
inductive LedgerOp where
  | markSeen (uri cid createdAt now : String)
  | markDeleted (uri now : String)
  | recordSuccess (uri platform : String) (remoteId : Option String)
      (remoteIds : Option (List String)) (remoteUrl : Option String) (now : String)
  | recordFailure (uri platform error now : String)
  | recordDeletion (uri platform now : String)
  | incrementBudget (day : String) (incrementBy : Int)
  deriving Repr, DecidableEq

def applyOp (st : Ledger) : LedgerOp → Ledger
  | .markSeen uri cid createdAt now => markSourcePostSeen st uri cid createdAt now
  | .markDeleted uri now => markSourcePostDeleted st uri now
  | .recordSuccess uri platform remoteId remoteIds remoteUrl now =>
      recordPlatformSuccess st uri platform remoteId remoteIds remoteUrl now
  | .recordFailure uri platform error now => recordPlatformFailure st uri platform error now
  | .recordDeletion uri platform now => recordPlatformDeletion st uri platform now
  | .incrementBudget day incrementBy => incrementTwitterPostCount st day incrementBy

def applyOps (st : Ledger) (ops : List LedgerOp) : Ledger :=
  ops.foldl applyOp st

/-- Does this operation mark the given source uri deleted? -/
def opDeletes (uri : String) : LedgerOp → Bool
  | .markDeleted u _ => u = uri
  | _ => false

/-- There is a live (`deleted_at IS NULL`) row for this uri. -/
def ActiveEntry (st : Ledger) (uri : String) : Prop :=
  ∃ row, (uri, row) ∈ st.sourcePosts ∧ row.deletedAt = none

/-! ## Posts, adapters and the dispatch worker

`CrossPost` (core/types.ts) is modelled with the fields the dispatch
claims exercise; `media` and `quote` attachments are not modelled, so
`buildPostTextWithSelfQuote` is the identity on `text` (quote-context.ts
line 56: a post without a quote returns `post.text` unchanged) and
`uploadMedia` contributes nothing (it returns `[]` for a post without
media). -/

/-- `ReplyMetadata` (core/types.ts). -/
structure ReplyMetadata where
  rootUri : String
  rootCid : String
  parentUri : String
  parentCid : String
  deriving Repr, DecidableEq

/-- `CrossPost` (core/types.ts), restricted to text posts. -/
structure CrossPost where
  text : Text
  createdAt : String
  authorDid : String
  reply : Option ReplyMetadata
  sourceUri : String
  sourceCid : String
  deriving Repr, DecidableEq

/-- `PostResult` (core/types.ts). -/
structure PostResult where
  id : Option String
  url : Option String
  threadIds : List String
  deriving Repr, DecidableEq

/-- The observable shape of a thrown JavaScript error, as far as the
worker's `extractStatusCode` (unnamed worker revision, lines 107-133)
inspects it: the numeric `code`/`status`/`statusCode` fields and the
message. `retryDelayMs` abstracts the result of
`extractTwitter429DelayMs` (lines 167-222), whose header/epoch parsing is
wire-format handling outside the dispatch logic under verification. -/
structure ErrorInfo where
  code : Option Int
  status : Option Int
  statusCode : Option Int
  message : String
  retryDelayMs : Option Int
  deriving Repr, DecidableEq

/-- Errors an adapter `post` can throw, as the worker distinguishes them:
`TwitterDailyLimitError` (adapters/twitter.ts lines 204-228) versus any
other error. -/
inductive AdapterError where
  | dailyLimit (day : String) (currentCount : Int) (attemptedPosts : Nat) (limit : Int)
      (delayMs : Int)
  | thrown (info : ErrorInfo)
  deriving Repr, DecidableEq

/-- Word characters of the JavaScript regex `\b` boundary: `[A-Za-z0-9_]`. -/
def isWordChar (c : Char) : Bool :=
  c.isAlpha || c.isDigit || c = '_'

/-- Does a `4\d\x7b2\x7d` or `5\d\x7b2\x7d` token start here, with a word
boundary after its third digit? -/
def statusTokenAt : List Char → Option Int
  | a :: b :: c :: rest =>
    if (a = '4' || a = '5') && b.isDigit && c.isDigit
        && (match rest.head? with | some d => !isWordChar d | none => true) then
      some (((a.toNat - 48) * 100 + (b.toNat - 48) * 10 + (c.toNat - 48) : Nat) : Int)
    else none
  | _ => none

/-- Leftmost match of the message regex of `extractStatusCode`: a 4xx/5xx
three-digit token delimited by word boundaries. `prev` is the character
before the scan position (none at the start of the string). -/
def findStatusToken : Option Char → List Char → Option Int
  | _, [] => none
  | prev, x :: xs =>
    match (if (match prev with | some p => !isWordChar p | none => true) then
        statusTokenAt (x :: xs) else none) with
    | some n => some n
    | none => findStatusToken (some x) xs

/-- `extractStatusCode` (unnamed worker revision, lines 107-133): the first
finite numeric among `code`, `status`, `statusCode`, else the first
4xx/5xx token of the message. -/
def extractStatusCode (e : ErrorInfo) : Option Int :=
  match e.code <|> e.status <|> e.statusCode with
  | some n => some n
  | none => findStatusToken none e.message.data

/-- `isPermanentClientError` (unnamed worker revision, lines 135-137). -/
def isPermanentClientError (statusCode : Option Int) : Bool :=
  match statusCode with
  | some n => decide (400 ≤ n ∧ n < 500 ∧ n ≠ 429)
  | none => false

/-- The message of the dependency-not-ready error thrown by
`TwitterAdapter.post` (adapters/twitter.ts lines 618-622). -/
def twitterDepNotReadyMessage (sourceUri : String) : String :=
  "Reply thread dependency not ready on Twitter for " ++ sourceUri
    ++ "; waiting for parent/root cross-post"

/-- The dependency-not-ready throw as an `ErrorInfo`: a plain `Error` with
no numeric status fields. -/
def twitterDepNotReadyError (sourceUri : String) : ErrorInfo :=
  ⟨none, none, none, twitterDepNotReadyMessage sourceUri, none⟩

/-- The message of `TwitterDailyLimitError` (adapters/twitter.ts
lines 218-220). -/
def dailyLimitMessage (day : String) (currentCount : Int) (attemptedPosts : Nat)
    (limit : Int) : String :=
  "Twitter daily cap reached (" ++ toString currentCount ++ "/" ++ toString limit
    ++ ") on " ++ day ++ ". Delaying " ++ toString attemptedPosts ++ " post(s)."

/-- Any `AdapterError` viewed through the fields `extractStatusCode`
reads: a `TwitterDailyLimitError` is a plain `Error` subclass with no
numeric status fields. -/
def errorInfoOf : AdapterError → ErrorInfo
  | .dailyLimit day cc n lim _ => ⟨none, none, none, dailyLimitMessage day cc n lim, none⟩
  | .thrown info => info

/-- `msUntilNextUtcMidnight` (adapters/twitter.ts lines 86-90):
`next.setUTCHours(24,0,0,0)` lands on the next UTC midnight, so the delay
is a day length minus the time elapsed in the current UTC day. -/
def msUntilNextUtcMidnight (nowMs : Nat) : Int :=
  (86400000 - nowMs % 86400000 : Nat)

/-- One `createTweet` call of the posting loop (adapters/twitter.ts
lines 629-639), as observed by the external service. -/
structure TweetCall where
  text : Text
  replyToTweetId : Option String
  deriving Repr, DecidableEq

/-- The posting loop of `TwitterAdapter.post` (lines 629-639): one tweet
per chunk, each replying to the previous one (the first to the inherited
reply id), incrementing the daily budget by 1 after each created tweet.
`freshIds` are the ids the external service mints, one per created
tweet. -/
def tweetLoop (day : String) : List Text → List String → Option String → Ledger →
    List String × List TweetCall × Ledger
  | [], _, _, st => ([], [], st)
  | _ :: _, [], _, st => ([], [], st)
  | chunk :: chunks, id :: ids, replyTo, st =>
    let st1 := incrementTwitterPostCount st day 1
    let rest := tweetLoop day chunks ids (some id) st1
    (id :: rest.1, ⟨chunk, replyTo⟩ :: rest.2.1, rest.2.2)

/-- `TwitterAdapter.post` (adapters/twitter.ts lines 584-646), for a post
without media or quote. `countLength` stands for `countByTwitterRules`
(the twitter-text library's weighted length, external to the repository);
`day` stands for `toUtcDay()` and `nowMs` for `Date.now()`. Returns the
result or thrown error, the ledger after the attempt, and the trace of
`createTweet` calls made. -/
def twitterPostAttempt (limit : Int) (countLength : LengthCounter) (day : String)
    (nowMs : Nat) (freshIds : List String) (post : CrossPost) (st : Ledger) :
    Except AdapterError (PostResult × List TweetCall) × Ledger :=
  let text := post.text
  let chunks := splitIntoThread text 280 countLength (some 8)
  let currentCount := getTwitterPostCount st day
  if currentCount + chunks.length > limit then
    (.error (.dailyLimit day currentCount chunks.length limit (msUntilNextUtcMidnight nowMs)),
     st)
  else
    let parentReplyId :=
      match post.reply with
      | some r => getPlatformRemoteId st r.parentUri ("twitter")
      | none => none
    let rootReplyId :=
      match post.reply with
      | some r => getPlatformRemoteId st r.rootUri ("twitter")
      | none => none
    if post.reply.isSome ∧ strTruthy parentReplyId = none ∧ strTruthy rootReplyId = none then
      (.error (.thrown (twitterDepNotReadyError post.sourceUri)), st)
    else
      let inheritedReplyId := parentReplyId <|> rootReplyId
      let loop := tweetLoop day chunks freshIds inheritedReplyId st
      let threadIds := loop.1
      (.ok (⟨threadIds.head?,
             threadIds.head?.map (fun i => "https://x.com/i/web/status/" ++ i),
             threadIds⟩, loop.2.1), loop.2.2)

/-- The reply tags computed by `NostrAdapter.post` (adapters/nostr.ts
lines 189-208), or the dependency-not-ready throw. The guard is the JS
truthiness of `post.reply?.rootUri`; `pubkey` is the adapter's public
key. A tag value of `parentId ?? rootId!` is rendered via `getD` under
the branch guard that makes it defined. -/
def nostrReplyTags (st : Ledger) (post : CrossPost) (pubkey : String) :
    Except ErrorInfo (List (List String)) :=
  match post.reply with
  | none => .ok []
  | some r =>
    if r.rootUri = "" then .ok []
    else
      let rootId := getPlatformRemoteId st r.rootUri ("nostr")
      let parentId := getPlatformRemoteId st r.parentUri ("nostr")
      if strTruthy rootId = none ∧ strTruthy parentId = none then
        .error ⟨none, none, none,
          "Reply thread dependency not ready on Nostr for " ++ post.sourceUri
            ++ "; waiting for parent/root cross-post", none⟩
      else
        let rootTags := match strTruthy rootId with
          | some rid => [["e", rid, "", "root"]]
          | none => []
        let replyTags :=
          if (strTruthy parentId).isSome || (strTruthy rootId).isSome then
            [["e", (parentId <|> rootId).getD (""), "", "reply"]]
          else []
        let pTags :=
          if (strTruthy rootId).isSome || (strTruthy parentId).isSome then
            [["p", pubkey]]
          else []
        .ok (rootTags ++ replyTags ++ pTags)

/-- A deterministic job id (core/queue.ts `createJobId`, lines 13-16). The
sha256 fingerprint of the source uri is kept abstract (an injective digest
from node:crypto); the structure records what the id is built from. -/
structure JobId where
  platform : String
  uriDigest : String
  suffix : Option String
  deriving Repr, DecidableEq

def createJobId (platform sourceUri : String) (suffix : Option String) : JobId :=
  ⟨platform, sourceUri, suffix⟩

/-- A job handed back to BullMQ by the worker with a delay. -/
structure EnqueuedJob where
  name : String
  jobId : JobId
  delayMs : Int
  deriving Repr, DecidableEq

/-- How a `processJob` invocation ends, as BullMQ sees it:
* `completedSuccess` / `completedDeferred` — the handler returned
  normally (for a deferral, after re-adding a delayed copy of the job);
* `failedRetryable` — a plain throw: BullMQ re-attempts the job while
  attempts remain (queue default: 5 attempts, exponential backoff);
* `failedUnrecoverable` — `UnrecoverableError`: BullMQ marks the job
  failed and never retries it. -/
inductive DispatchOutcome where
  | completedSuccess (result : PostResult)
  | completedDeferred
  | failedRetryable (message : String)
  | failedUnrecoverable (message : String)
  deriving Repr, DecidableEq

/-- The 60-second floor `MIN_429_DELAY_MS` of the worker. -/
def min429DelayMs : Int := 60000

/-- The catch-block classification of `CrosspostWorkers.processJob`
(unnamed worker revision, lines 341-409) for errors that are not a
twitter `TwitterDailyLimitError`: the twitter 429 branch re-enqueues a
rate-limited copy; otherwise the failure is recorded in the Ledger and
rethrown, as an `UnrecoverableError` when the status code is a permanent
client error. -/
def classifyFailure (platform : String) (minIntervalMs : Int) (nowMs : Nat)
    (nowIso : String) (sourceUri : String) (info : ErrorInfo) (st : Ledger) :
    DispatchOutcome × Ledger × List EnqueuedJob :=
  let statusCode := extractStatusCode info
  if platform = "twitter" ∧ statusCode = some 429 then
    let delayMs := max (info.retryDelayMs.getD minIntervalMs) min429DelayMs
    (.completedDeferred, st,
     [⟨"twitter-crosspost-rate-limited",
       createJobId ("twitter") sourceUri (some ("rl-" ++ toString (nowMs / 1000))), delayMs⟩])
  else
    let st1 := recordPlatformFailure st sourceUri platform info.message nowIso
    if isPermanentClientError statusCode then
      (.failedUnrecoverable info.message, st1, [])
    else
      (.failedRetryable info.message, st1, [])

/-- `CrosspostWorkers.processJob` (unnamed worker revision, lines 302-410),
publish action. `attempt` is the completed adapter `post` call (for
twitter, `twitterPostAttempt` applied to the current ledger): the thrown
error or returned result, with the ledger as the adapter left it.
`nowIso` stands for
`new Date().toISOString()` at recording time. On success the worker
records the result; on a twitter daily-limit error it re-adds the job
delayed to the next UTC midnight under the day-scoped id and returns
normally; other errors go through `classifyFailure`. -/
def processJob (platform : String) (minIntervalMs : Int) (nowMs : Nat) (nowIso : String)
    (post : CrossPost)
    (attempt : Except AdapterError (PostResult × List TweetCall) × Ledger) :
    DispatchOutcome × Ledger × List EnqueuedJob :=
  match attempt with
  | (.ok (result, _), st1) =>
    (.completedSuccess result,
     recordPlatformSuccess st1 post.sourceUri platform result.id (some result.threadIds)
       result.url nowIso, [])
  | (.error (.dailyLimit day cc n lim delayMs), st1) =>
    if platform = "twitter" then
      (.completedDeferred, st1,
       [⟨"twitter-crosspost-delayed",
         createJobId ("twitter") post.sourceUri (some ("defer-" ++ day)), delayMs⟩])
    else
      classifyFailure platform minIntervalMs nowMs nowIso post.sourceUri
        (errorInfoOf (.dailyLimit day cc n lim delayMs)) st1
  | (.error (.thrown info), st1) =>
    classifyFailure platform minIntervalMs nowMs nowIso post.sourceUri info st1

/-! ### Concrete fixtures used by witnesses and counterexamples -/

/-- A plain top-level post. -/
def examplePost : CrossPost :=
  ⟨("hello").data, "2024-01-01T10:00:00.000Z", "did:plc:alice", none,
   "at://did:plc:alice/app.bsky.feed.post/abc", "cid-abc"⟩

def exampleReply : ReplyMetadata :=
  ⟨"at://did:plc:alice/app.bsky.feed.post/root", "cid-root",
   "at://did:plc:alice/app.bsky.feed.post/par", "cid-par"⟩

/-- A reply post in a self-thread. -/
def exampleReplyPost : CrossPost :=
  ⟨("hi").data, "2024-01-01T10:05:00.000Z", "did:plc:alice", some exampleReply,
   "at://did:plc:alice/app.bsky.feed.post/rep", "cid-rep"⟩

/-- A ledger whose budget row for 2024-01-01 is at 17. -/
def fullBudgetLedger : Ledger := ⟨[], [], [("2024-01-01", 17)]⟩

/-- A ledger where the reply's parent has remote ids recorded on twitter
and nostr. -/
def parentRecordedLedger : Ledger :=
  ⟨[],
   [(("at://did:plc:alice/app.bsky.feed.post/par", "twitter"),
     ⟨"success", some ("111"), none, none, none, "t0"⟩),
    (("at://did:plc:alice/app.bsky.feed.post/par", "nostr"),
     ⟨"success", some ("n111"), none, none, none, "t0"⟩)],
   []⟩

/-- A 403 response from a target, as thrown by an adapter. -/
def exampleForbidden : ErrorInfo := ⟨none, some 403, none, "Forbidden", none⟩

/-! ## Lemmas about the splitter loop -/

theorem length_dropWhile_le_self {α : Type} (p : α → Bool) (l : List α) :
    (l.dropWhile p).length ≤ l.length := by
  induction l with
  | nil => simp
  | cons x xs ih =>
    by_cases h : p x
    · simp only [List.dropWhile_cons, h, if_true, List.length_cons]
      exact Nat.le_succ_of_le ih
    · simp [List.dropWhile_cons, h]

theorem one_le_windowSplit_len (countLength : LengthCounter) (maxLength : Int)
    (g : Char) (gs : Text) : 1 ≤ (windowSplit countLength maxLength g gs).2 := by
  unfold windowSplit
  dsimp only
  split
  · exact Nat.le_refl 1
  · next h0 =>
    have h1 : 1 ≤ (scanWindow countLength maxLength (g :: gs) [] 0 none).len :=
      Nat.one_le_iff_ne_zero.mpr h0
    split
    · split
      · exact Nat.le_add_left 1 _
      · exact h1
    · exact h1

/-- The loop fuel is immaterial once it covers the number of remaining
graphemes: each iteration consumes at least one grapheme, so the
structural fuel of `splitRawLoop` never runs out when started at the
text's length (as `splitRaw` does). -/
theorem splitRawLoop_fuel_irrelevant (countLength : LengthCounter) (maxLength : Int) :
    ∀ (f1 f2 : Nat) (t : Text), t.length ≤ f1 → t.length ≤ f2 →
      splitRawLoop countLength maxLength f1 t = splitRawLoop countLength maxLength f2 t := by
  intro f1
  induction f1 with
  | zero =>
    intro f2 t h1 _
    have ht : t = [] := List.eq_nil_of_length_eq_zero (Nat.le_zero.mp h1)
    subst ht
    cases f2 <;> rfl
  | succ f1 ih =>
    intro f2 t h1 h2
    cases t with
    | nil => cases f2 <;> rfl
    | cons g gs =>
      cases f2 with
      | zero => simp at h2
      | succ f2 =>
        unfold splitRawLoop
        dsimp only
        have hk := one_le_windowSplit_len countLength maxLength g gs
        have hrest : (((g :: gs).drop (windowSplit countLength maxLength g gs).2).dropWhile
            isWsChar).length ≤ gs.length := by
          have ha := length_dropWhile_le_self isWsChar
            ((g :: gs).drop (windowSplit countLength maxLength g gs).2)
          have hb := List.length_drop (windowSplit countLength maxLength g gs).2 (g :: gs)
          simp only [List.length_cons] at hb
          omega
        have hr1 : (((g :: gs).drop (windowSplit countLength maxLength g gs).2).dropWhile
            isWsChar).length ≤ f1 := by
          simp only [List.length_cons] at h1
          omega
        have hr2 : (((g :: gs).drop (windowSplit countLength maxLength g gs).2).dropWhile
            isWsChar).length ≤ f2 := by
          simp only [List.length_cons] at h2
          omega
        rw [ih f2 (((g :: gs).drop (windowSplit countLength maxLength g gs).2).dropWhile
          isWsChar) hr1 hr2]

/-! ## Lemmas about the key-value primitives -/

section KVLemmas

variable {κ ν : Type} [DecidableEq κ]

theorem findRow_upsertWith_self (k : κ) (ins : ν) (upd : ν → ν) (m : List (κ × ν)) :
    findRow k (upsertWith k ins upd m)
      = some (match findRow k m with | none => ins | some v => upd v) := by
  induction m with
  | nil => simp [findRow, upsertWith]
  | cons p rest ih =>
    obtain ⟨k', v⟩ := p
    by_cases h : k' = k
    · simp [findRow, upsertWith, h]
    · simp [findRow, upsertWith, h, ih]

theorem findRow_upsertWith_const (k : κ) (v : ν) (m : List (κ × ν)) :
    findRow k (upsertWith k v (fun _ => v) m) = some v := by
  rw [findRow_upsertWith_self]
  cases findRow k m <;> rfl

theorem mem_upsertWith_const_self (k : κ) (v : ν) (m : List (κ × ν)) :
    (k, v) ∈ upsertWith k v (fun _ => v) m := by
  induction m with
  | nil => simp [upsertWith]
  | cons p rest ih =>
    obtain ⟨k', w⟩ := p
    by_cases h : k' = k
    · subst h
      simp [upsertWith]
    · simp [upsertWith, h, ih]

theorem mem_upsertWith_of_ne {k' : κ} {w : ν} (k : κ) (ins : ν) (upd : ν → ν)
    {m : List (κ × ν)} (hmem : (k', w) ∈ m) (hne : k' ≠ k) :
    (k', w) ∈ upsertWith k ins upd m := by
  induction m with
  | nil => cases hmem
  | cons p rest ih =>
    obtain ⟨k0, v0⟩ := p
    by_cases h : k0 = k
    · subst h
      simp only [upsertWith, if_pos rfl]
      rcases List.mem_cons.mp hmem with heq | htail
      · exact absurd (congrArg Prod.fst heq) hne
      · exact List.mem_cons.mpr (Or.inr htail)
    · simp only [upsertWith, if_neg h]
      rcases List.mem_cons.mp hmem with heq | htail
      · exact List.mem_cons.mpr (Or.inl heq)
      · exact List.mem_cons.mpr (Or.inr (ih htail))

theorem mem_updateRow_of_ne {k' : κ} {w : ν} (k : κ) (f : ν → ν)
    {m : List (κ × ν)} (hmem : (k', w) ∈ m) (hne : k' ≠ k) :
    (k', w) ∈ updateRow k f m := by
  unfold updateRow
  have : (fun p : κ × ν => if p.1 = k then (p.1, f p.2) else p) (k', w) = (k', w) := by
    simp [hne]
  exact this ▸ List.mem_map_of_mem _ hmem

theorem updateRow_key_all (k : κ) (f : ν → ν) (m : List (κ × ν)) :
    ∀ p ∈ updateRow k f m, p.1 = k → ∃ v, p.2 = f v := by
  intro p hp hk
  unfold updateRow at hp
  rcases List.mem_map.mp hp with ⟨q, _, hq⟩
  by_cases h : q.1 = k
  · rw [if_pos h] at hq
    exact ⟨q.2, by rw [← hq]⟩
  · rw [if_neg h] at hq
    exact absurd (by rw [hq]; exact hk) h

theorem upsertWith_const_twice (k : κ) (v w : ν) (m : List (κ × ν)) :
    upsertWith k w (fun _ => w) (upsertWith k v (fun _ => v) m)
      = upsertWith k w (fun _ => w) m := by
  induction m with
  | nil => simp [upsertWith]
  | cons p rest ih =>
    obtain ⟨k0, v0⟩ := p
    by_cases h : k0 = k
    · simp [upsertWith, h]
    · simp [upsertWith, h, ih]

end KVLemmas

/-! ## Lemmas about the Ledger operations -/

theorem findRow_recordPlatformSuccess (st : Ledger) (uri platform : String)
    (remoteId : Option String) (remoteIds : Option (List String)) (remoteUrl : Option String)
    (now : String) :
    findRow (uri, platform)
        (recordPlatformSuccess st uri platform remoteId remoteIds remoteUrl now).platformResults
      = some (successRow remoteId remoteIds remoteUrl now) := by
  simp only [recordPlatformSuccess]
  exact findRow_upsertWith_const _ _ _

theorem findRow_recordPlatformFailure (st : Ledger) (uri platform error now : String) :
    findRow (uri, platform) (recordPlatformFailure st uri platform error now).platformResults
      = some (match findRow (uri, platform) st.platformResults with
              | none => ⟨"failed", none, none, none, some error, now⟩
              | some old => { old with
                  status := "failed"
                  error := some error
                  updatedAt := now }) := by
  simp only [recordPlatformFailure]
  rw [findRow_upsertWith_self]
  cases findRow (uri, platform) st.platformResults <;> rfl

theorem length_dedupKeepFirst_go_le (l seen : List String) :
    (dedupKeepFirst.go l seen).length ≤ l.length := by
  induction l generalizing seen with
  | nil => simp [dedupKeepFirst.go]
  | cons x xs ih =>
    by_cases h : x ∈ seen
    · simp only [dedupKeepFirst.go, if_pos h]
      exact Nat.le_succ_of_le (ih seen)
    · simp only [dedupKeepFirst.go, if_neg h, List.length_cons]
      exact Nat.succ_le_succ (ih (x :: seen))

theorem dedupKeepFirst_go_eq_self_iff (l seen : List String) :
    dedupKeepFirst.go l seen = l ↔ l.Nodup ∧ ∀ x ∈ l, x ∉ seen := by
  induction l generalizing seen with
  | nil => simp [dedupKeepFirst.go]
  | cons x xs ih =>
    by_cases h : x ∈ seen
    · simp only [dedupKeepFirst.go, if_pos h]
      constructor
      · intro heq
        have hlen := length_dedupKeepFirst_go_le xs seen
        rw [heq] at hlen
        simp at hlen
      · rintro ⟨-, hall⟩
        exact absurd h (hall x (List.mem_cons_self x xs))
    · simp only [dedupKeepFirst.go, if_neg h, List.cons.injEq, true_and]
      rw [ih (x :: seen)]
      constructor
      · rintro ⟨hnd, hall⟩
        refine ⟨List.nodup_cons.mpr ⟨fun hx => ?_, hnd⟩, ?_⟩
        · exact (hall x hx) (List.mem_cons_self x seen)
        · intro y hy
          rcases List.mem_cons.mp hy with rfl | hy2
          · exact h
          · exact fun hys => (hall y hy2) (List.mem_cons_of_mem x hys)
      · rintro ⟨hnd, hall⟩
        rcases List.nodup_cons.mp hnd with ⟨hx, hnd2⟩
        refine ⟨hnd2, fun y hy hymem => ?_⟩
        rcases List.mem_cons.mp hymem with rfl | hyseen
        · exact hx hy
        · exact (hall y (List.mem_cons_of_mem x hy)) hyseen

theorem dedupKeepFirst_eq_self_iff (l : List String) :
    dedupKeepFirst l = l ↔ l.Nodup := by
  unfold dedupKeepFirst
  rw [dedupKeepFirst_go_eq_self_iff]
  simp

/-! ## Claim C6 -/

/-- C6: for every sourceId and target, `recordFailure` after a prior
`recordSuccess` does not erase the remote ids recorded by the success:
`getRemoteIds` still returns the ids from the success, and the failure
upsert changes only the `status`, `error` and `updatedAt` columns of the
row the success wrote. -/
theorem recordFailure_preserves_success_remote_ids (st : Ledger) (uri platform : String)
    (remoteId : Option String) (remoteIds : Option (List String)) (remoteUrl : Option String)
    (err t1 t2 : String) :
    getPlatformRemoteIds
        (recordPlatformFailure (recordPlatformSuccess st uri platform remoteId remoteIds
          remoteUrl t1) uri platform err t2) uri platform
      = getPlatformRemoteIds (recordPlatformSuccess st uri platform remoteId remoteIds
          remoteUrl t1) uri platform
    ∧ findRow (uri, platform)
        (recordPlatformFailure (recordPlatformSuccess st uri platform remoteId remoteIds
          remoteUrl t1) uri platform err t2).platformResults
      = some { successRow remoteId remoteIds remoteUrl t1 with
          status := "failed"
          error := some err
          updatedAt := t2 } := by
  have h1 := findRow_recordPlatformSuccess st uri platform remoteId remoteIds remoteUrl t1
  have h2 := findRow_recordPlatformFailure
    (recordPlatformSuccess st uri platform remoteId remoteIds remoteUrl t1) uri platform err t2
  rw [h1] at h2
  refine ⟨?_, h2⟩
  unfold getPlatformRemoteIds
  rw [h1, h2]

/-! ## Claim C8 -/

/-- C8 counterexample: the claim states that calling `markSeen` twice with
the same arguments `(sourceId, contentCid, createdAt)` leaves the Ledger in
the same state as calling it once.  The upsert also refreshes the
`detected_at` column with the current time (`new Date().toISOString()`,
db.ts line 95), so a second call at a later instant changes the stored
`detectedAt` and the resulting state differs. -/
theorem markSeen_twice_differs_when_clock_advances :
    markSourcePostSeen
        (markSourcePostSeen emptyLedger ("u1") ("c1") ("t0") ("2024-01-01T00:00:00.000Z"))
        ("u1") ("c1") ("t0") ("2024-01-01T00:00:05.000Z")
      ≠ markSourcePostSeen emptyLedger ("u1") ("c1") ("t0") ("2024-01-01T00:00:00.000Z") := by
  decide

/-- C8 amended: with the observation clock made explicit, a repeated
`markSeen` with the same arguments is absorbed into a single call at the
later clock value (so up to the refreshed `detectedAt` timestamp the call
is idempotent), and every `markSeen` call clears any prior `deletedAt`:
after it, the stored row is exactly `(cid, createdAt, now, deletedAt = NULL)`. -/
theorem markSeen_idempotent_up_to_clock (st : Ledger) (uri cid createdAt n1 n2 : String) :
    markSourcePostSeen (markSourcePostSeen st uri cid createdAt n1) uri cid createdAt n2
      = markSourcePostSeen st uri cid createdAt n2
    ∧ findRow uri (markSourcePostSeen st uri cid createdAt n1).sourcePosts
      = some ⟨cid, createdAt, n1, none⟩ := by
  constructor
  · simp only [markSourcePostSeen]
    rw [upsertWith_const_twice]
  · simp only [markSourcePostSeen]
    exact findRow_upsertWith_const _ _ _

/-! ## Claim C10 -/

/-- C10: `recordSuccess` stores the supplied remote-id list with duplicates
removed, keeping first-occurrence order (`Array.from(new Set(...))`), so
`getRemoteIds` returns the deduplicated list, and the list round-trips
exactly if and only if it is duplicate-free. -/
theorem recordSuccess_dedups_remote_ids (st : Ledger) (uri platform : String)
    (remoteId : Option String) (ids : List String) (remoteUrl : Option String) (now : String)
    (hne : ids ≠ []) :
    getPlatformRemoteIds
        (recordPlatformSuccess st uri platform remoteId (some ids) remoteUrl now) uri platform
      = dedupKeepFirst ids
    ∧ (getPlatformRemoteIds
        (recordPlatformSuccess st uri platform remoteId (some ids) remoteUrl now) uri platform
      = ids ↔ ids.Nodup) := by
  have h1 := findRow_recordPlatformSuccess st uri platform remoteId (some ids) remoteUrl now
  have hjson : successRemoteIdsJson (some ids) = some (dedupKeepFirst ids) := by
    simp [successRemoteIdsJson, List.length_eq_zero, hne]
  have hmain : getPlatformRemoteIds
      (recordPlatformSuccess st uri platform remoteId (some ids) remoteUrl now) uri platform
      = dedupKeepFirst ids := by
    unfold getPlatformRemoteIds
    rw [h1]
    simp only [successRow, hjson]
  exact ⟨hmain, by rw [hmain]; exact dedupKeepFirst_eq_self_iff ids⟩

/-! ## Claim C7 -/

theorem mem_listActiveSourceUris_iff (st : Ledger) (uri : String) :
    uri ∈ listActiveSourceUris st ↔ ActiveEntry st uri := by
  unfold listActiveSourceUris ActiveEntry
  constructor
  · intro h
    rcases List.mem_map.mp h with ⟨p, hp, hfst⟩
    obtain ⟨u, row⟩ := p
    rcases List.mem_filter.mp hp with ⟨hmem, hcond⟩
    cases hfst
    exact ⟨row, hmem, Option.isNone_iff_eq_none.mp hcond⟩
  · rintro ⟨row, hmem, hdel⟩
    exact List.mem_map.mpr
      ⟨(uri, row), List.mem_filter.mpr ⟨hmem, by simp [hdel]⟩, rfl⟩

theorem activeEntry_applyOp (uri : String) (op : LedgerOp) (st : Ledger)
    (hop : opDeletes uri op = false) (h : ActiveEntry st uri) :
    ActiveEntry (applyOp st op) uri := by
  obtain ⟨row, hmem, hdel⟩ := h
  cases op with
  | markSeen u cid createdAt now =>
    by_cases hu : u = uri
    · subst hu
      exact ⟨⟨cid, createdAt, now, none⟩, mem_upsertWith_const_self _ _ _, rfl⟩
    · exact ⟨row, mem_upsertWith_of_ne _ _ _ hmem (fun e => hu e.symm), hdel⟩
  | markDeleted u now =>
    have hu : u ≠ uri := by simpa [opDeletes] using hop
    exact ⟨row, mem_updateRow_of_ne u (fun r : SourceRow => { r with deletedAt := some now })
      hmem (fun e => hu e.symm), hdel⟩
  | recordSuccess u platform remoteId remoteIds remoteUrl now => exact ⟨row, hmem, hdel⟩
  | recordFailure u platform error now => exact ⟨row, hmem, hdel⟩
  | recordDeletion u platform now => exact ⟨row, hmem, hdel⟩
  | incrementBudget day incrementBy => exact ⟨row, hmem, hdel⟩

theorem activeEntry_applyOps (uri : String) (ops : List LedgerOp) (st : Ledger)
    (hops : ∀ op ∈ ops, opDeletes uri op = false) (h : ActiveEntry st uri) :
    ActiveEntry (applyOps st ops) uri := by
  induction ops generalizing st with
  | nil => exact h
  | cons op rest ih =>
    exact ih (applyOp st op) (fun o ho => hops o (List.mem_cons_of_mem _ ho))
      (activeEntry_applyOp uri op st (hops op (List.mem_cons_self _ _)) h)

theorem not_active_after_markDeleted (st : Ledger) (uri now : String) :
    uri ∉ listActiveSourceUris (markSourcePostDeleted st uri now) := by
  rw [mem_listActiveSourceUris_iff]
  rintro ⟨row, hmem, hdel⟩
  have hmem2 : ((uri, row) : String × SourceRow)
      ∈ updateRow uri (fun r => { r with deletedAt := some now }) st.sourcePosts := hmem
  rcases updateRow_key_all uri _ st.sourcePosts (uri, row) hmem2 rfl with ⟨v, hv⟩
  rw [show ((uri, row) : String × SourceRow).2 = row from rfl] at hv
  rw [hv] at hdel
  simp at hdel

/-- C7: a source id that has been marked seen and never subsequently marked
deleted is in `listActiveIds()` (whatever other Ledger operations happen
before or after); and after `markDeleted(sourceId)` the id is no longer in
`listActiveIds()`. -/
theorem listActiveIds_contains_seen_until_deleted (st : Ledger) (ops1 ops2 : List LedgerOp)
    (uri cid createdAt now : String)
    (hnd : ∀ op ∈ ops2, opDeletes uri op = false) :
    uri ∈ listActiveSourceUris
        (applyOps st (ops1 ++ LedgerOp.markSeen uri cid createdAt now :: ops2))
    ∧ ∀ (st2 : Ledger) (now2 : String),
        uri ∉ listActiveSourceUris (markSourcePostDeleted st2 uri now2) := by
  constructor
  · rw [mem_listActiveSourceUris_iff]
    have hsplit : applyOps st (ops1 ++ LedgerOp.markSeen uri cid createdAt now :: ops2)
        = applyOps (applyOp (applyOps st ops1) (LedgerOp.markSeen uri cid createdAt now))
            ops2 := by
      unfold applyOps
      rw [List.foldl_append]
      rfl
    rw [hsplit]
    apply activeEntry_applyOps uri ops2 _ hnd
    exact ⟨⟨cid, createdAt, now, none⟩, mem_upsertWith_const_self _ _ _, rfl⟩
  · intro st2 now2
    exact not_active_after_markDeleted st2 uri now2

/-- Witness for C7: a seen id stays active across unrelated operations
(another id being seen and deleted), and deleting it removes it. -/
theorem listActiveIds_contains_seen_until_deleted_witness :
    (∀ op ∈ [LedgerOp.markSeen ("b") ("c2") ("t2") ("n2"),
             LedgerOp.markDeleted ("b") ("n3")], opDeletes ("a") op = false)
    ∧ (("a") ∈ listActiveSourceUris
        (applyOps emptyLedger
          ([] ++ LedgerOp.markSeen ("a") ("c1") ("t1") ("n1")
            :: [LedgerOp.markSeen ("b") ("c2") ("t2") ("n2"),
                LedgerOp.markDeleted ("b") ("n3")]))
      ∧ ∀ (st2 : Ledger) (now2 : String),
          ("a") ∉ listActiveSourceUris (markSourcePostDeleted st2 ("a") now2)) :=
  ⟨by decide,
   listActiveIds_contains_seen_until_deleted emptyLedger []
     [LedgerOp.markSeen ("b") ("c2") ("t2") ("n2"), LedgerOp.markDeleted ("b") ("n3")]
     ("a") ("c1") ("t1") ("n1") (by decide)⟩

/-- Witness for C10 at a concrete duplicated list. -/
theorem recordSuccess_dedups_remote_ids_witness :
    (["a", "b", "a"] : List String) ≠ []
    ∧ (getPlatformRemoteIds
        (recordPlatformSuccess emptyLedger ("u1") ("twitter") none (some ["a", "b", "a"])
          none ("t1")) ("u1") ("twitter")
      = dedupKeepFirst ["a", "b", "a"]
    ∧ (getPlatformRemoteIds
        (recordPlatformSuccess emptyLedger ("u1") ("twitter") none (some ["a", "b", "a"])
          none ("t1")) ("u1") ("twitter")
      = ["a", "b", "a"] ↔ (["a", "b", "a"] : List String).Nodup)) :=
  ⟨by decide,
   recordSuccess_dedups_remote_ids emptyLedger ("u1") ("twitter") none (["a", "b", "a"])
     none ("t1") (by decide)⟩

/-! ## Lemmas for additive length counters (claim C1) -/

theorem additive_nil (C : LengthCounter) (ha : AdditiveCounter C) : C [] = 0 := by
  have h := ha [] []
  simp at h
  linarith

theorem counter_nonneg (C : LengthCounter) (ha : AdditiveCounter C)
    (hc : CharNonnegCounter C) : ∀ l : Text, 0 ≤ C l := by
  intro l
  induction l with
  | nil =>
    rw [additive_nil C ha]
  | cons c cs ih =>
    have h2 : C (c :: cs) = C [c] + C cs := by
      have := ha [c] cs
      simpa using this
    rw [h2]
    exact add_nonneg (hc c) ih

theorem counter_trimEnd_le (C : LengthCounter) (ha : AdditiveCounter C)
    (hc : CharNonnegCounter C) (l : Text) : C (trimEnd l) ≤ C l := by
  have h1 : l = (List.dropWhile isWsChar l.reverse).reverse
      ++ (List.takeWhile isWsChar l.reverse).reverse := by
    conv_lhs => rw [← List.reverse_reverse l]
    rw [← List.reverse_append, List.takeWhile_append_dropWhile]
  have h2 := counter_nonneg C ha hc ((List.takeWhile isWsChar l.reverse).reverse)
  have h3 : C l = C ((List.dropWhile isWsChar l.reverse).reverse)
      + C ((List.takeWhile isWsChar l.reverse).reverse) := by
    conv_lhs => rw [h1]
    exact ha _ _
  unfold trimEnd
  linarith

theorem trimFit_le (C : LengthCounter) (maxLength : Int) :
    ∀ (l out : Text), C out ≤ maxLength → C (trimFit C maxLength out l) ≤ maxLength := by
  intro l
  induction l with
  | nil => exact fun out h => h
  | cons g gs ih =>
    intro out h
    unfold trimFit
    split
    · exact h
    · next hng => exact ih _ (le_of_not_lt hng)

theorem trimToLimit_le (C : LengthCounter) (ha : AdditiveCounter C)
    (hc : CharNonnegCounter C) (t : Text) (maxLength : Int) (hmax : 0 ≤ maxLength) :
    C (trimToLimit t maxLength C) ≤ maxLength := by
  unfold trimToLimit
  split
  · next h => exact h
  · calc C (trimEnd (trimFit C maxLength [] t))
        ≤ C (trimFit C maxLength [] t) := counter_trimEnd_le C ha hc _
      _ ≤ maxLength := trimFit_le C maxLength t [] (by rw [additive_nil C ha]; exact hmax)

theorem mem_suffixSegments (C : LengthCounter) (L : Int) (total : Nat) :
    ∀ (chunks : List Text) (i : Nat) (s : Text), s ∈ suffixSegments C L total i chunks →
      ∃ j chunk, i ≤ j ∧ j < i + chunks.length
        ∧ s = trimToLimit chunk (L - C (mkSuffix (j + 1) total)) C
            ++ mkSuffix (j + 1) total := by
  intro chunks
  induction chunks with
  | nil =>
    intro i s h
    cases h
  | cons c cs ih =>
    intro i s h
    unfold suffixSegments at h
    dsimp only at h
    rcases List.mem_cons.mp h with rfl | h2
    · exact ⟨i, c, le_refl i, by simp, rfl⟩
    · rcases ih (i + 1) s h2 with ⟨j, chunk, hij, hlt, hs⟩
      refine ⟨j, chunk, by omega, ?_, hs⟩
      simp only [List.length_cons]
      omega

/-! ## Claim C1 -/

/-- C1 counterexample: the claim quantifies over every positive limit and
every counting function.  With the code-point counter and `maxLength = 3`
(default `reserveForCounter = 6`), the input `abcd` is split into
single-grapheme windows and the counter suffix alone exceeds the limit:
every returned segment has count 4 > 3. -/
theorem splitIntoThread_limit_counterexample :
    splitIntoThread (("abcd").data) 3 countByCodePoints none
      = [(" 1/4").data, (" 2/4").data, (" 3/4").data, (" 4/4").data]
    ∧ ¬ countByCodePoints ((" 1/4").data) ≤ 3 := by
  decide

/-- C1 amended: for an additive, nonnegatively-weighing counting function
`C`, a nonnegative limit, and inputs whose counter suffixes ` i/N` each fit
within the limit, every segment returned by `splitIntoThread` satisfies
`C(segment) ≤ maxLength`; and when splitting yields `N ≥ 2` windows the
result is exactly each window re-trimmed to `maxLength - C(" i/N")` with
the suffix appended. -/
theorem splitIntoThread_within_limit (C : LengthCounter) (text : Text) (maxLength : Int)
    (reserveForCounter : Option Int)
    (ha : AdditiveCounter C) (hc : CharNonnegCounter C) (hL : 0 ≤ maxLength)
    (hsuffix : ∀ j < (splitRaw (trimBoth text)
        (max 1 (maxLength - reserveForCounter.getD 6)) C).length,
      C (mkSuffix (j + 1) ((splitRaw (trimBoth text)
        (max 1 (maxLength - reserveForCounter.getD 6)) C).length)) ≤ maxLength) :
    (∀ s ∈ splitIntoThread text maxLength C reserveForCounter, C s ≤ maxLength)
    ∧ (2 ≤ (splitRaw (trimBoth text)
          (max 1 (maxLength - reserveForCounter.getD 6)) C).length →
        maxLength < C (trimBoth text) →
        splitIntoThread text maxLength C reserveForCounter
          = suffixSegments C maxLength
              ((splitRaw (trimBoth text)
                (max 1 (maxLength - reserveForCounter.getD 6)) C).length)
              0 (splitRaw (trimBoth text)
                (max 1 (maxLength - reserveForCounter.getD 6)) C)) := by
  constructor
  · intro s hs
    unfold splitIntoThread at hs
    dsimp only at hs
    split at hs
    · rw [List.mem_singleton.mp hs]
      rw [additive_nil C ha]
      exact hL
    · split at hs
      · next hfit =>
        rw [List.mem_singleton.mp hs]
        exact hfit
      · split at hs
        · rw [List.mem_singleton.mp hs]
          exact trimToLimit_le C ha hc _ maxLength hL
        · rcases mem_suffixSegments C maxLength _ _ 0 s hs with ⟨j, chunk, -, hlt, rfl⟩
          have hsj := hsuffix j (by simpa using hlt)
          have hpos : (0 : Int) ≤ maxLength - C (mkSuffix (j + 1)
              ((splitRaw (trimBoth text)
                (max 1 (maxLength - reserveForCounter.getD 6)) C).length)) := by
            linarith
          have h1 := trimToLimit_le C ha hc chunk _ hpos
          rw [ha]
          linarith
  · intro h2 hbig
    unfold splitIntoThread
    dsimp only
    rw [if_neg (by
      intro he
      rw [List.isEmpty_iff] at he
      rw [he, additive_nil C ha] at hbig
      linarith)]
    rw [if_neg (not_le.mpr hbig)]
    rw [if_neg (by omega)]

/-- Witness for the amended C1: code-point counting at limit 6 over a text
that splits into eight single-grapheme windows. -/
theorem splitIntoThread_within_limit_witness :
    (0 : Int) ≤ 6
    ∧ (∀ j < (splitRaw (trimBoth (("abc def gh").data)) (max 1 (6 - 6))
        countByCodePoints).length,
      countByCodePoints (mkSuffix (j + 1) ((splitRaw (trimBoth (("abc def gh").data))
        (max 1 (6 - 6)) countByCodePoints).length)) ≤ 6)
    ∧ (∀ s ∈ splitIntoThread (("abc def gh").data) 6 countByCodePoints none,
        countByCodePoints s ≤ 6) :=
  ⟨by decide, by decide,
   (splitIntoThread_within_limit countByCodePoints (("abc def gh").data) 6 none
     (by
       intro a b
       simp [countByCodePoints])
     (by
       intro c
       simp [countByCodePoints])
     (by decide)
     (by decide)).1⟩

/-! ## Claim C9 -/

/-- C9 counterexample: for a 340-grapheme whitespace-free text with
maxLength 280 and reserveForCounter 8, the claim says a single hard-broken
segment is returned with no counter suffix (only one window produced).
With the code-point counter, `splitRaw` at the reduced limit `280 - 8`
produces two windows (272 + 68 graphemes), so `splitIntoThread` returns
two counter-suffixed segments, not one. -/
theorem single_window_scenario_counterexample :
    (splitIntoThread (List.replicate 340 'a') 280 countByCodePoints (some 8)).length = 2
    ∧ ¬(splitIntoThread (List.replicate 340 'a') 280 countByCodePoints (some 8)).length
      = 1 := by
  decide

/-- C9 amended: for a 340-grapheme whitespace-and-punctuation-free text
under code-point counting with maxLength 280 and reserveForCounter 8,
`splitIntoThread` returns TWO hard-broken segments — the first 272
graphemes suffixed ` 1/2` and the remaining 68 graphemes suffixed ` 2/2` —
each of C-length at most 280. -/
theorem single_window_scenario_amended :
    splitIntoThread (List.replicate 340 'a') 280 countByCodePoints (some 8)
      = [List.replicate 272 'a' ++ (" 1/2").data, List.replicate 68 'a' ++ (" 2/2").data]
    ∧ (splitIntoThread (List.replicate 340 'a') 280 countByCodePoints (some 8)).all
        (fun s => countByCodePoints s ≤ 280) = true := by
  decide

/-! ## Lemmas for dependency resolution -/

theorem strTruthy_eq_self {o : Option String} (h : ∀ s, o = some s → s ≠ "") :
    strTruthy o = o := by
  cases o with
  | none => rfl
  | some s => simp [strTruthy, h s rfl]

theorem splitIntoThread_ne_nil (t : Text) (maxLength : Int) (C : LengthCounter)
    (reserveForCounter : Option Int) :
    splitIntoThread t maxLength C reserveForCounter ≠ [] := by
  unfold splitIntoThread
  dsimp only
  split
  · simp
  · split
    · simp
    · split
      · simp
      · next hgt =>
        cases hraw : splitRaw (trimBoth t)
            (max 1 (maxLength - reserveForCounter.getD 6)) C with
        | nil =>
          rw [hraw] at hgt
          simp at hgt
        | cons c cs =>
          simp [suffixSegments]

theorem tweetLoop_head_reply (day : String) (c : Text) (cs : List Text) (f : String)
    (fs : List String) (replyTo : Option String) (st : Ledger) :
    ((tweetLoop day (c :: cs) (f :: fs) replyTo st).2.1.map TweetCall.replyToTweetId).head?
      = some replyTo := by
  simp [tweetLoop]

/-! ## Claim C4 -/

/-- C4: for every publish of an item carrying reply linkage on a target:
when neither the parent's nor the root's remote id is recorded in the
Ledger for that target, the attempt does not post and raises the
dependency-not-ready condition (shown for the twitter and nostr adapters);
otherwise the item is posted as a reply whose reply-to remote id is
`parentRemoteId ?? rootRemoteId`: the first created tweet replies to it,
and the nostr `reply` e-tag carries it.  The Ledger is assumed to store
only non-empty remote ids (these adapters never record an empty id). -/
theorem reply_dependency_resolution (st : Ledger) (post : CrossPost) (r : ReplyMetadata)
    (limit : Int) (C : LengthCounter) (day : String) (nowMs : Nat) (freshIds : List String)
    (pubkey : String)
    (hr : post.reply = some r)
    (hbudget : ¬(getTwitterPostCount st day
        + ((splitIntoThread post.text 280 C (some 8)).length : Int) > limit))
    (hfresh : freshIds ≠ [])
    (hwfPT : ∀ s, getPlatformRemoteId st r.parentUri ("twitter") = some s → s ≠ "")
    (hwfRT : ∀ s, getPlatformRemoteId st r.rootUri ("twitter") = some s → s ≠ "")
    (hwfPN : ∀ s, getPlatformRemoteId st r.parentUri ("nostr") = some s → s ≠ "")
    (hwfRN : ∀ s, getPlatformRemoteId st r.rootUri ("nostr") = some s → s ≠ "")
    (hroot : r.rootUri ≠ "") :
    (getPlatformRemoteId st r.parentUri ("twitter") = none
      ∧ getPlatformRemoteId st r.rootUri ("twitter") = none →
        twitterPostAttempt limit C day nowMs freshIds post st
          = (.error (.thrown (twitterDepNotReadyError post.sourceUri)), st))
    ∧ (¬(getPlatformRemoteId st r.parentUri ("twitter") = none
          ∧ getPlatformRemoteId st r.rootUri ("twitter") = none) →
        ∃ res calls st1, twitterPostAttempt limit C day nowMs freshIds post st
            = (.ok (res, calls), st1)
          ∧ (calls.map TweetCall.replyToTweetId).head?
            = some (getPlatformRemoteId st r.parentUri ("twitter")
                <|> getPlatformRemoteId st r.rootUri ("twitter")))
    ∧ (getPlatformRemoteId st r.parentUri ("nostr") = none
        ∧ getPlatformRemoteId st r.rootUri ("nostr") = none →
          ∃ info, nostrReplyTags st post pubkey = .error info)
    ∧ (¬(getPlatformRemoteId st r.parentUri ("nostr") = none
          ∧ getPlatformRemoteId st r.rootUri ("nostr") = none) →
        ∃ tags, nostrReplyTags st post pubkey = .ok tags
          ∧ ["e", (getPlatformRemoteId st r.parentUri ("nostr")
              <|> getPlatformRemoteId st r.rootUri ("nostr")).getD (""), "", "reply"]
            ∈ tags) := by
  have hPT := strTruthy_eq_self hwfPT
  have hRT := strTruthy_eq_self hwfRT
  have hPN := strTruthy_eq_self hwfPN
  have hRN := strTruthy_eq_self hwfRN
  refine ⟨?_, ?_, ?_, ?_⟩
  · rintro ⟨hp, hq⟩
    unfold twitterPostAttempt
    dsimp only
    rw [if_neg hbudget, hr]
    dsimp only
    rw [if_pos ⟨rfl, by rw [hp]; rfl, by rw [hq]; rfl⟩]
  · intro hnot
    obtain ⟨c, cs, hchunks⟩ : ∃ c cs, splitIntoThread post.text 280 C (some 8) = c :: cs := by
      cases h : splitIntoThread post.text 280 C (some 8) with
      | nil => exact absurd h (splitIntoThread_ne_nil _ _ _ _)
      | cons c cs => exact ⟨c, cs, rfl⟩
    obtain ⟨f, fs, hf⟩ : ∃ f fs, freshIds = f :: fs := by
      cases freshIds with
      | nil => exact absurd rfl hfresh
      | cons f fs => exact ⟨f, fs, rfl⟩
    unfold twitterPostAttempt
    dsimp only
    rw [if_neg hbudget, hr]
    dsimp only
    rw [if_neg (by
      rintro ⟨-, hp, hq⟩
      rw [hPT] at hp
      rw [hRT] at hq
      exact hnot ⟨hp, hq⟩)]
    rw [hchunks, hf]
    exact ⟨_, _, _, rfl, tweetLoop_head_reply day c cs f fs _ st⟩
  · rintro ⟨hp, hq⟩
    unfold nostrReplyTags
    rw [hr]
    dsimp only
    rw [if_neg (by simpa using hroot)]
    rw [if_pos ⟨by rw [hq]; rfl, by rw [hp]; rfl⟩]
    exact ⟨_, rfl⟩
  · intro hnot
    unfold nostrReplyTags
    rw [hr]
    dsimp only
    rw [if_neg (by simpa using hroot)]
    rw [if_neg (by
      rintro ⟨hq, hp⟩
      rw [hRN] at hq
      rw [hPN] at hp
      exact hnot ⟨hp, hq⟩)]
    refine ⟨_, rfl, ?_⟩
    rw [hPN, hRN]
    have hsome : ((getPlatformRemoteId st r.parentUri ("nostr")).isSome
        || (getPlatformRemoteId st r.rootUri ("nostr")).isSome) = true := by
      rcases not_and_or.mp hnot with h | h
      · simp [Option.isSome_iff_ne_none, h]
      · simp [Option.isSome_iff_ne_none, h]
    rw [if_pos hsome]
    simp

/-- Witness for C4: with the parent's remote id recorded on twitter and
nostr, the first tweet replies to it and the nostr reply tag carries it. -/
theorem reply_dependency_resolution_witness :
    (¬(getPlatformRemoteId parentRecordedLedger exampleReply.parentUri ("twitter") = none
        ∧ getPlatformRemoteId parentRecordedLedger exampleReply.rootUri ("twitter") = none) →
      ∃ res calls st1,
          twitterPostAttempt 17 countByCodePoints ("2024-01-01") 0 ["901", "902"]
            exampleReplyPost parentRecordedLedger
          = (.ok (res, calls), st1)
        ∧ (calls.map TweetCall.replyToTweetId).head?
          = some (getPlatformRemoteId parentRecordedLedger exampleReply.parentUri ("twitter")
              <|> getPlatformRemoteId parentRecordedLedger exampleReply.rootUri ("twitter")))
    ∧ (¬(getPlatformRemoteId parentRecordedLedger exampleReply.parentUri ("nostr") = none
          ∧ getPlatformRemoteId parentRecordedLedger exampleReply.rootUri ("nostr") = none) →
        ∃ tags, nostrReplyTags parentRecordedLedger exampleReplyPost ("pk") = .ok tags
          ∧ ["e", (getPlatformRemoteId parentRecordedLedger exampleReply.parentUri ("nostr")
              <|> getPlatformRemoteId parentRecordedLedger exampleReply.rootUri ("nostr")).getD
              (""), "", "reply"] ∈ tags) := by
  have h := reply_dependency_resolution parentRecordedLedger exampleReplyPost exampleReply 17
    countByCodePoints ("2024-01-01") 0 ["901", "902"] ("pk") rfl (by decide) (by decide)
    (by
      intro s hs
      have h0 : getPlatformRemoteId parentRecordedLedger exampleReply.parentUri ("twitter")
          = some ("111") := by decide
      rw [h0] at hs
      have h1 := Option.some.inj hs
      subst h1
      decide)
    (by
      intro s hs
      have h0 : getPlatformRemoteId parentRecordedLedger exampleReply.rootUri ("twitter")
          = none := by decide
      rw [h0] at hs
      exact Option.noConfusion hs)
    (by
      intro s hs
      have h0 : getPlatformRemoteId parentRecordedLedger exampleReply.parentUri ("nostr")
          = some ("n111") := by decide
      rw [h0] at hs
      have h1 := Option.some.inj hs
      subst h1
      decide)
    (by
      intro s hs
      have h0 : getPlatformRemoteId parentRecordedLedger exampleReply.rootUri ("nostr")
          = none := by decide
      rw [h0] at hs
      exact Option.noConfusion hs)
    (by decide)
  exact ⟨h.2.1, h.2.2.2⟩

/-! ## Claim C3 -/

/-- C3: when the current day's budget count plus the number of segments to
post exceeds the daily limit, the job is not attempted: the adapter throws
`TwitterDailyLimitError` before posting anything, and the worker re-adds
the job delayed by `msUntilNextUtcMidnight` under the day-scoped derived
job id `defer-<day>`, returning normally.  The Ledger comes back unchanged,
so no failure row is written and the budget counter keeps its value. -/
theorem daily_budget_exceeded_defers_job (limit : Int) (C : LengthCounter) (day : String)
    (nowMs : Nat) (nowIso : String) (minIntervalMs : Int) (freshIds : List String)
    (post : CrossPost) (st : Ledger)
    (hover : getTwitterPostCount st day
        + ((splitIntoThread post.text 280 C (some 8)).length : Int) > limit) :
    processJob ("twitter") minIntervalMs nowMs nowIso post
        (twitterPostAttempt limit C day nowMs freshIds post st)
      = (.completedDeferred, st,
         [⟨"twitter-crosspost-delayed",
           createJobId ("twitter") post.sourceUri (some ("defer-" ++ day)),
           msUntilNextUtcMidnight nowMs⟩]) := by
  have hatt : twitterPostAttempt limit C day nowMs freshIds post st
      = (.error (.dailyLimit day (getTwitterPostCount st day)
          (splitIntoThread post.text 280 C (some 8)).length limit
          (msUntilNextUtcMidnight nowMs)), st) := by
    unfold twitterPostAttempt
    rw [if_pos hover]
  rw [hatt]
  simp [processJob]

/-- Witness for C3 at Scenario D: current count 17, limit 17, one segment. -/
theorem daily_budget_exceeded_defers_job_witness :
    getTwitterPostCount fullBudgetLedger ("2024-01-01")
        + ((splitIntoThread examplePost.text 280 countByCodePoints (some 8)).length : Int) > 17
    ∧ processJob ("twitter") 5000 36400 ("t1") examplePost
        (twitterPostAttempt 17 countByCodePoints ("2024-01-01") 36400 ["901"] examplePost
          fullBudgetLedger)
      = (.completedDeferred, fullBudgetLedger,
         [⟨"twitter-crosspost-delayed",
           createJobId ("twitter") examplePost.sourceUri (some ("defer-" ++ "2024-01-01")),
           msUntilNextUtcMidnight 36400⟩]) :=
  ⟨by decide,
   daily_budget_exceeded_defers_job 17 countByCodePoints ("2024-01-01") 36400 ("t1") 5000
     ["901"] examplePost fullBudgetLedger (by decide)⟩

/-! ## Claim C5 -/

/-- C5: every dispatch failure carrying a 4xx-class status code other than
429 is terminal: the worker writes a failure row to the Ledger for the
(item, target) pair and rethrows as BullMQ's `UnrecoverableError`, which is
never retried. -/
theorem permanent_client_error_is_terminal (platform : String) (minIntervalMs : Int)
    (nowMs : Nat) (nowIso : String) (post : CrossPost) (info : ErrorInfo) (st1 : Ledger)
    (s : Int)
    (hs : extractStatusCode info = some s)
    (h400 : 400 ≤ s) (h500 : s < 500) (h429 : s ≠ 429) :
    processJob platform minIntervalMs nowMs nowIso post (.error (.thrown info), st1)
      = (.failedUnrecoverable info.message,
         recordPlatformFailure st1 post.sourceUri platform info.message nowIso, [])
    ∧ ∃ row, findRow (post.sourceUri, platform)
          (recordPlatformFailure st1 post.sourceUri platform info.message nowIso).platformResults
        = some row ∧ row.status = "failed" := by
  have hperm : isPermanentClientError (extractStatusCode info) = true := by
    rw [hs]
    unfold isPermanentClientError
    exact decide_eq_true ⟨h400, h500, h429⟩
  have hnot429 : ¬(platform = "twitter" ∧ extractStatusCode info = some 429) := by
    rintro ⟨-, h⟩
    rw [hs] at h
    exact h429 (Option.some.inj h)
  have hstep : processJob platform minIntervalMs nowMs nowIso post (.error (.thrown info), st1)
      = classifyFailure platform minIntervalMs nowMs nowIso post.sourceUri info st1 := rfl
  constructor
  · rw [hstep]
    unfold classifyFailure
    dsimp only
    rw [if_neg hnot429, if_pos hperm]
  · rw [findRow_recordPlatformFailure]
    cases findRow (post.sourceUri, platform) st1.platformResults with
    | none => exact ⟨_, rfl, rfl⟩
    | some old => exact ⟨_, rfl, rfl⟩

/-- Witness for C5: a 403 rejection is recorded and marked unrecoverable. -/
theorem permanent_client_error_is_terminal_witness :
    extractStatusCode exampleForbidden = some 403
    ∧ (400 : Int) ≤ 403 ∧ (403 : Int) < 500 ∧ (403 : Int) ≠ 429
    ∧ (processJob ("mastodon") 5000 0 ("t1") examplePost
        (.error (.thrown exampleForbidden), emptyLedger)
      = (.failedUnrecoverable exampleForbidden.message,
         recordPlatformFailure emptyLedger examplePost.sourceUri ("mastodon")
           exampleForbidden.message ("t1"), [])
    ∧ ∃ row, findRow (examplePost.sourceUri, "mastodon")
          (recordPlatformFailure emptyLedger examplePost.sourceUri ("mastodon")
            exampleForbidden.message ("t1")).platformResults
        = some row ∧ row.status = "failed") :=
  ⟨by decide, by decide, by decide, by decide,
   permanent_client_error_is_terminal ("mastodon") 5000 0 ("t1") examplePost exampleForbidden
     emptyLedger 403 (by decide) (by decide) (by decide) (by decide)⟩

/-! ## Claim C2 -/

/-- C2 counterexample: for a reply item whose parent and root have no
recorded remote id on twitter, the dispatch attempt does raise the
dependency-not-ready condition and the job is rethrown as a plain error
(so BullMQ retries it), but — contrary to the claim — the attempt IS
recorded as a `failed` row in the Ledger for that (item, target) pair
before the rethrow (unnamed worker revision, lines 397-402). -/
theorem dependency_not_ready_records_failure_counterexample :
    (processJob ("twitter") 5000 0 ("t1") exampleReplyPost
        (twitterPostAttempt 17 countByCodePoints ("2024-01-01") 0 ["901"] exampleReplyPost
          emptyLedger)).1
      = .failedRetryable (twitterDepNotReadyMessage exampleReplyPost.sourceUri)
    ∧ findRow (exampleReplyPost.sourceUri, "twitter")
        (processJob ("twitter") 5000 0 ("t1") exampleReplyPost
          (twitterPostAttempt 17 countByCodePoints ("2024-01-01") 0 ["901"] exampleReplyPost
            emptyLedger)).2.1.platformResults
      = some ⟨"failed", none, none, none,
          some (twitterDepNotReadyMessage exampleReplyPost.sourceUri), "t1"⟩ := by
  decide

/-- C2 amended: for a reply item whose parent and root have no recorded
remote id on target twitter (and whose budget allows the attempt, and whose
source uri contributes no status-code-looking token to the error message),
the dispatch attempt raises the dependency-not-ready error; the worker
records a `failed` row for the (item, target) pair and rethrows the error
as a plain failure, so BullMQ retries the job while attempts remain. -/
theorem dependency_not_ready_retried_and_recorded (st : Ledger) (post : CrossPost)
    (r : ReplyMetadata) (limit : Int) (C : LengthCounter) (day : String) (nowMs : Nat)
    (nowIso : String) (minIntervalMs : Int) (freshIds : List String)
    (hr : post.reply = some r)
    (hbudget : ¬(getTwitterPostCount st day
        + ((splitIntoThread post.text 280 C (some 8)).length : Int) > limit))
    (hparent : getPlatformRemoteId st r.parentUri ("twitter") = none)
    (hroot : getPlatformRemoteId st r.rootUri ("twitter") = none)
    (hmsg : findStatusToken none (twitterDepNotReadyMessage post.sourceUri).data = none) :
    processJob ("twitter") minIntervalMs nowMs nowIso post
        (twitterPostAttempt limit C day nowMs freshIds post st)
      = (.failedRetryable (twitterDepNotReadyMessage post.sourceUri),
         recordPlatformFailure st post.sourceUri ("twitter")
           (twitterDepNotReadyMessage post.sourceUri) nowIso, [])
    ∧ ∃ row, findRow (post.sourceUri, "twitter")
          (recordPlatformFailure st post.sourceUri ("twitter")
            (twitterDepNotReadyMessage post.sourceUri) nowIso).platformResults
        = some row ∧ row.status = "failed" := by
  have hatt : twitterPostAttempt limit C day nowMs freshIds post st
      = (.error (.thrown (twitterDepNotReadyError post.sourceUri)), st) := by
    unfold twitterPostAttempt
    dsimp only
    rw [if_neg hbudget, hr]
    dsimp only
    rw [if_pos ⟨rfl, by rw [hparent]; rfl, by rw [hroot]; rfl⟩]
  have hstatus : extractStatusCode (twitterDepNotReadyError post.sourceUri) = none := by
    unfold extractStatusCode twitterDepNotReadyError
    simpa using hmsg
  rw [hatt]
  have hstep : processJob ("twitter") minIntervalMs nowMs nowIso post
        (.error (.thrown (twitterDepNotReadyError post.sourceUri)), st)
      = classifyFailure ("twitter") minIntervalMs nowMs nowIso post.sourceUri
          (twitterDepNotReadyError post.sourceUri) st := rfl
  constructor
  · rw [hstep]
    unfold classifyFailure
    dsimp only
    rw [if_neg (by rw [hstatus]; rintro ⟨-, h⟩; cases h)]
    rw [if_neg (by rw [hstatus]; unfold isPermanentClientError; simp)]
    rfl
  · rw [findRow_recordPlatformFailure]
    cases findRow (post.sourceUri, "twitter") st.platformResults with
    | none => exact ⟨_, rfl, rfl⟩
    | some old => exact ⟨_, rfl, rfl⟩

/-- Witness for the amended C2, at the concrete scenario of the
counterexample. -/
theorem dependency_not_ready_retried_and_recorded_witness :
    exampleReplyPost.reply = some exampleReply
    ∧ ¬(getTwitterPostCount emptyLedger ("2024-01-01")
        + ((splitIntoThread exampleReplyPost.text 280 countByCodePoints (some 8)).length
          : Int) > 17)
    ∧ getPlatformRemoteId emptyLedger exampleReply.parentUri ("twitter") = none
    ∧ getPlatformRemoteId emptyLedger exampleReply.rootUri ("twitter") = none
    ∧ findStatusToken none (twitterDepNotReadyMessage exampleReplyPost.sourceUri).data = none
    ∧ (processJob ("twitter") 5000 0 ("t1") exampleReplyPost
        (twitterPostAttempt 17 countByCodePoints ("2024-01-01") 0 ["901"] exampleReplyPost
          emptyLedger)
      = (.failedRetryable (twitterDepNotReadyMessage exampleReplyPost.sourceUri),
         recordPlatformFailure emptyLedger exampleReplyPost.sourceUri ("twitter")
           (twitterDepNotReadyMessage exampleReplyPost.sourceUri) ("t1"), [])
    ∧ ∃ row, findRow (exampleReplyPost.sourceUri, "twitter")
          (recordPlatformFailure emptyLedger exampleReplyPost.sourceUri ("twitter")
            (twitterDepNotReadyMessage exampleReplyPost.sourceUri) ("t1")).platformResults
        = some row ∧ row.status = "failed") :=
  ⟨rfl, by decide, by decide, by decide, by decide,
   dependency_not_ready_retried_and_recorded emptyLedger exampleReplyPost exampleReply 17
     countByCodePoints ("2024-01-01") 0 ("t1") 5000 ["901"] rfl (by decide) (by decide)
     (by decide) (by decide)⟩

end Syndicator
